import Mathlib

/-!
Verification of `kivy/network/urlrequest.py` (the asynchronous HTTP request
engine).  The worker thread (`UrlRequestBase.run` / `_fetch_url` /
`get_chunks`), the consumer-side drain routine (`_dispatch_result`), the
header post-processing (`modify_response_headers`), the JSON auto-decoding
(`decode_result`), the synchronous `wait` loop, the `bind` registration and
the streaming-path decision are shallowly embedded below.  External
collaborators (the transport reads, `json.loads`, UTF-8 decoding) are passed
in as explicit parameters, exactly as the spec scopes them out.

Conventions:
* the default backend (`UrlRequestUrllib`, selected by
  `implementation_map["default"]`) provides the concrete transport methods
  (`get_chunks`, `get_total_size`, `get_content_type`, `get_response`,
  `get_all_headers`); those are the ones embedded here;
* the result queue is a Lean list in push order (`appendleft` + `pop` is
  FIFO, so draining processes the list head first);
* Python exceptions are values of type `Cause` (a message string) carried in
  `Except`;
* Python attributes that may be `None` are `Option` values.
-/

namespace UrlRequest

/-- A Python exception, abstracted to its message. -/
abbrev Cause := String

/-- Raw response bytes. -/
abbrev Bytes := List Nat

/-- A parsed JSON value.  `json.loads` is an external collaborator (the spec
treats JSON decoding "only as a contract, not as a parser"), so the value is
abstract: theorems quantify over the parse function. -/
structure Json where
  val : String
deriving DecidableEq, Repr

/-- `s[:-1]` in Python: drop the final character (identity on `""`).
Used for the trailing-separator trim in `modify_response_headers`. -/
def py_drop_last (s : String) : String :=
  String.mk s.data.dropLast

/-- `s.split(c)[0]` in Python: the part of `s` before the first occurrence
of the character `c` (all of `s` when `c` does not occur). -/
def py_split_head (s : String) (c : Char) : String :=
  String.mk (s.data.takeWhile (fun x => x ≠ c))

/-- Join a list of strings with a separator, Python `sep.join(l)`. -/
def py_join (sep : String) : List String → String
  | [] => ""
  | [v] => v
  | v :: rest => v ++ sep ++ py_join sep rest

/-- Lower-case a string (ASCII), for the case-insensitive header lookup done
by `http.client.HTTPResponse.getheader`. -/
def lower_str (s : String) : String :=
  String.mk (s.data.map Char.toLower)

/-- `int(s)` on a digit string; `none` when Python `int` would raise. -/
def parse_nat (s : String) : Option Nat :=
  if s.data ≠ [] ∧ s.data.all Char.isDigit then
    some (s.data.foldl (fun n c => n * 10 + (c.toNat - 48)) 0)
  else none

deriving instance DecidableEq for Except

/-- The view of an `http.client.HTTPResponse` that the engine reads:
`status`, `getheaders()` (an ordered association list), and the byte stream
consumed by successive `read` calls.  Each entry of `reads` is what one
`resp.read(chunk_size)` call yields: a chunk, or a raised exception; after
the list is exhausted `read` returns `b''` (EOF). -/
structure Resp where
  status : Nat
  headers : List (String × String)
  reads : List (Except Cause Bytes)
deriving DecidableEq, Repr

/-- `HTTPResponse.getheader(name)`: case-insensitive lookup; multiple values
are joined with `", "`; `none` when the header is absent. -/
def getheader (resp : Resp) (name : String) : Option String :=
  match (resp.headers.filter
      (fun kv => lower_str kv.1 == lower_str name)).map Prod.snd with
  | [] => none
  | vs => some (py_join ", " vs)

/-- `UrlRequestUrllib.get_total_size`:
`int(resp.getheader('content-length'))`, with any exception (absent header
or non-numeric value) turned into `-1`. -/
def get_total_size (resp : Resp) : Int :=
  match getheader resp "content-length" with
  | none => -1
  | some v =>
    match parse_nat v with
    | none => -1
    | some n => (n : Int)

/-- `UrlRequestUrllib.get_content_type`:
`resp.getheader('Content-Type', None)`. -/
def get_content_type (resp : Resp) : Option String :=
  getheader resp "Content-Type"

/-- `UrlRequestUrllib.get_response`: `resp.read()` — the concatenation of
the remaining stream, or the exception the read raises. -/
def read_all : List (Except Cause Bytes) → Except Cause Bytes
  | [] => Except.ok []
  | Except.error e :: _ => Except.error e
  | Except.ok c :: rest =>
    match read_all rest with
    | Except.error e => Except.error e
    | Except.ok r => Except.ok (c ++ r)

/-- A response body as held by the engine: raw bytes, decoded text, or a
parsed JSON value. -/
inductive Body
  | bytes (b : Bytes)
  | str (s : String)
  | json (j : Json)
deriving DecidableEq, Repr

/-- An element of the result queue, the tuple
`(result, resp, data)` pushed by the worker:
`('progress', resp, (bytes_so_far, total_size))`,
`('success', resp, result)`, `('error', None, e)` or
`('killed', None, None)`. -/
inductive Ev
  | progress (resp : Resp) (bytes_so_far : Nat) (total_size : Int)
  | success (resp : Resp) (data : Body)
  | err (e : Cause)
  | killed
deriving DecidableEq, Repr

/-- A callback dispatch performed by `_dispatch_callbacks`, tagged with the
callback list it targets and the payload passed along. -/
inductive Call
  | success (data : Body)
  | redirect (data : Body)
  | failure (data : Body)
  | error (e : Cause)
  | cancel
  | finish
  | progress (bytes_so_far : Nat) (total_size : Int)
deriving DecidableEq, Repr

def is_progress_ev : Ev → Bool
  | Ev.progress _ _ _ => true
  | _ => false

def is_terminal_ev : Ev → Bool
  | Ev.progress _ _ _ => false
  | _ => true

def is_progress_call : Call → Bool
  | Call.progress _ _ => true
  | _ => false

/-- One of the five terminal-classification dispatches
(`on_success`, `on_redirect`, `on_failure`, `on_error`, `on_cancel`). -/
def is_terminal_call : Call → Bool
  | Call.success _ => true
  | Call.redirect _ => true
  | Call.failure _ => true
  | Call.error _ => true
  | Call.cancel => true
  | _ => false

/-! ## `modify_response_headers` -/

/-- `UrlRequestBase.modify_response_headers`, the header post-processing:
one loop over `get_all_headers(resp)` accumulates every `Set-Cookie` value
into `final_cookies` (appending `value + ";"`) and every other header into
`parsed_headers` in order; then `("Set-Cookie", final_cookies[:-1])` is
appended.  The result list is what `dict(parsed_headers)` is built from. -/
def modify_response_headers (headers : List (String × String)) :
    List (String × String) :=
  let acc := headers.foldl
    (fun acc kv =>
      if kv.1 == "Set-Cookie" then (acc.1 ++ kv.2 ++ ";", acc.2)
      else (acc.1, acc.2 ++ [kv]))
    ("", [])
  acc.2 ++ [("Set-Cookie", py_drop_last acc.1)]

/-- Lookup in a Python `dict` built from an association list: duplicate keys
overwrite, so the last value bound to the key wins. -/
def pydict_get (l : List (String × String)) (k : String) : Option String :=
  ((l.filter (fun kv => kv.1 == k)).getLast?).map Prod.snd

/-! ## The worker: `get_chunks`, `_fetch_url`, `decode_result`, `run` -/

/-- `UrlRequestUrllib.get_chunks`: the chunked read loop.  Consumes the
response stream; a non-empty chunk is written to the file sink (when
`use_fd`) or appended to `result`; `bytes_so_far` accumulates; when
`report_progress` a progress event is pushed after each chunk; the
cancellation flag (`cancel i` models `self._cancel_event.is_set()` at the
i-th check) is tested after each chunk and breaks the loop.  An empty chunk
(or stream end) breaks; a raising read propagates the exception after the
events already pushed.  Returns the pushed events and either the exception
or the final `(bytes_so_far, result)`. -/
def get_chunks (report_progress : Bool) (total_size : Int)
    (cancel : Nat → Bool) (use_fd : Bool) (resp : Resp) :
    List (Except Cause Bytes) → Nat → Nat → Bytes →
    List Ev × Except Cause (Nat × Bytes)
  | [], _, bytes_so_far, result => ([], Except.ok (bytes_so_far, result))
  | Except.error e :: _, _, _, _ => ([], Except.error e)
  | Except.ok c :: rest, i, bytes_so_far, result =>
    if c.length = 0 then ([], Except.ok (bytes_so_far, result))
    else
      let result2 := if use_fd then result else result ++ c
      let so_far2 := bytes_so_far + c.length
      let evs := if report_progress
        then [Ev.progress resp so_far2 total_size] else []
      if cancel i then (evs, Except.ok (so_far2, result2))
      else
        let rec_res :=
          get_chunks report_progress total_size cancel use_fd resp
            rest (i + 1) so_far2 result2
        (evs ++ rec_res.1, rec_res.2)

/-- `UrlRequestBase._fetch_url` (default urllib backend), after
`call_request` has produced `call_result` (the response, or the exception a
connect/send failure raises).  `report_progress` is the value of
`self.on_progress is not None`; `utf8` is the external UTF-8 decoder
(`none` models a raised `UnicodeDecodeError`).  Returns the progress events
pushed on the queue and either the exception propagating out or the final
`(result, resp)`. -/
def fetch_url (report_progress : Bool) (file_path : Option String)
    (utf8 : Bytes → Option String) (cancel : Nat → Bool)
    (call_result : Except Cause Resp) :
    List Ev × Except Cause (Body × Resp) :=
  match call_result with
  | Except.error e => ([], Except.error e)
  | Except.ok resp =>
    if report_progress || file_path.isSome then
      let total_size := get_total_size resp
      let ev0 := if report_progress
        then [Ev.progress resp 0 total_size] else []
      match get_chunks report_progress total_size cancel
          file_path.isSome resp resp.reads 0 0 [] with
      | (evs, Except.error e) => (ev0 ++ evs, Except.error e)
      | (evs, Except.ok (bytes_so_far, result)) =>
        let ev_last := if report_progress
          then [Ev.progress resp bytes_so_far total_size] else []
        (ev0 ++ evs ++ ev_last, Except.ok (Body.bytes result, resp))
    else
      match read_all resp.reads with
      | Except.error e => ([], Except.error e)
      | Except.ok bs =>
        let result := match utf8 bs with
          | some s => Body.str s
          | none => Body.bytes bs
        ([], Except.ok (result, resp))

/-- `UrlRequestBase.decode_result`: when the content type (before the first
`';'`) is `application/json`, a bytes body is first UTF-8 decoded (outside
the `try`, so a decode failure raises out of the function) and then fed to
`json.loads` inside `try/except`: a successful parse is returned, any parse
failure falls back to the input value.  `parse` is the external
`json.loads`. -/
def decode_result (parse : String → Option Json)
    (utf8 : Bytes → Option String) (result : Body) (resp : Resp) :
    Except Cause Body :=
  match get_content_type resp with
  | none => Except.ok result
  | some content_type =>
    if py_split_head content_type ';' == "application/json" then
      match result with
      | Body.bytes b =>
        match utf8 b with
        | none => Except.error "UnicodeDecodeError"
        | some s =>
          match parse s with
          | some j => Except.ok (Body.json j)
          | none => Except.ok (Body.str s)
      | Body.str s =>
        match parse s with
        | some j => Except.ok (Body.json j)
        | none => Except.ok (Body.str s)
      | r => Except.ok r
    else Except.ok result

/-- `UrlRequestBase.run`, as the list of events it pushes on the queue (in
push order): the fetch runs inside `try`; on an exception from the fetch or
the optional decode a single `('error', None, e)` is pushed; otherwise the
cancellation flag decides between `('killed', ...)` and
`('success', resp, result)`.  `cancel_final` is the flag value at that
check (`self._cancel_event.is_set()` on line 333). -/
def run_events (decode : Bool) (parse : String → Option Json)
    (utf8 : Bytes → Option String) (report_progress : Bool)
    (file_path : Option String) (cancel : Nat → Bool) (cancel_final : Bool)
    (call_result : Except Cause Resp) : List Ev :=
  match fetch_url report_progress file_path utf8 cancel call_result with
  | (evs, Except.error e) => evs ++ [Ev.err e]
  | (evs, Except.ok (result, resp)) =>
    match (if decode then decode_result parse utf8 result resp
           else Except.ok result) with
    | Except.error e => evs ++ [Ev.err e]
    | Except.ok result2 =>
      if cancel_final then evs ++ [Ev.killed]
      else evs ++ [Ev.success resp result2]

/-! ## The consumer side: `_dispatch_result`, `wait`, `bind` -/

/-- The consumer-observable request state, as initialized by `__init__`:
`_is_finished`, `_result`, `_error`, `_resp_status`, `_resp_headers`
(the latter held as the association list `dict(...)` is built from). -/
structure DState where
  is_finished : Bool
  result : Option Body
  error : Option Cause
  resp_status : Option Nat
  resp_headers : Option (List (String × String))
deriving DecidableEq, Repr

/-- The field values set by `__init__` (lines 272-277). -/
def init_state : DState :=
  { is_finished := false, result := none, error := none,
    resp_status := none, resp_headers := none }

/-- The `if resp:` prologue of the drain loop body:
`modify_response_headers` stores the processed headers and the status
code. -/
def set_resp (s : DState) (resp : Resp) : DState :=
  { s with resp_headers := some (modify_response_headers resp.headers),
           resp_status := some resp.status }

/-- `UrlRequestBase._on_status_code`: dispatch by the hundreds digit of the
status code; classes 1 and 2 dispatch `on_success`, class 3 `on_redirect`,
classes 4 and 5 `on_failure`, anything else dispatches nothing. -/
def on_status_calls (status_class : Nat) (data : Body) : List Call :=
  if status_class = 1 ∨ status_class = 2 then [Call.success data]
  else if status_class = 3 then [Call.redirect data]
  else if status_class = 4 ∨ status_class = 5 then [Call.failure data]
  else []

/-- One iteration of the `_dispatch_result` loop body on a popped event:
the state update and the callback dispatches it performs, in order.  The
`resp` component is truthy exactly for progress and success events, so only
those run `modify_response_headers`; every non-progress event is followed
by an `on_finish` dispatch. -/
def drain_event (s : DState) : Ev → DState × List Call
  | Ev.progress resp bytes_so_far total_size =>
    (set_resp s resp, [Call.progress bytes_so_far total_size])
  | Ev.success resp data =>
    let s1 := set_resp s resp
    let s2 := { s1 with is_finished := true, result := some data }
    (s2, on_status_calls (resp.status / 100) data ++ [Call.finish])
  | Ev.err e =>
    ({ s with is_finished := true, error := some e },
     [Call.error e, Call.finish])
  | Ev.killed => (s, [Call.cancel, Call.finish])

/-- `UrlRequestBase._dispatch_result`: pop and process every queued event in
FIFO order, returning the final state and the concatenated dispatches. -/
def drain_all (s : DState) : List Ev → DState × List Call
  | [] => (s, [])
  | e :: rest =>
    let step := drain_event s e
    let next := drain_all step.1 rest
    (next.1, step.2 ++ next.2)

/-- Final state after draining a queue. -/
def drain_state (s : DState) (evs : List Ev) : DState :=
  (drain_all s evs).1

/-- `UrlRequestBase.wait`: `while self.resp_status is None:
_dispatch_result(delay); sleep(delay)`.  Modelled with fuel: the queue
contents are drained on the first iteration and the queue is empty
afterwards (the worker has already pushed everything once a terminal
outcome exists).  `none` means the loop has not exited within the fuel. -/
def wait_steps : Nat → DState → List Ev → Option DState
  | 0, _, _ => none
  | n + 1, s, evs =>
    if s.resp_status.isSome then some s
    else wait_steps n (drain_state s evs) []

/-! ## `__init__` wiring, `start`, `bind` -/

/-- A registered callback (the content of a `WeakMethod` is irrelevant). -/
abbrev Cb := Nat

/-- `__init__` line 267:
`self.on_progress = [WeakMethod(on_progress)] if on_progress else []`.
The Python attribute could in principle hold `None` (the `Option` layer),
but `__init__` always assigns a list. -/
def init_on_progress (on_progress : Option Cb) : Option (List Cb) :=
  some (match on_progress with
        | some cb => [cb]
        | none => [])

/-- `_fetch_url` line 384: `report_progress = self.on_progress is not None`
— a comparison of the attribute against `None`. -/
def report_progress_flag (on_progress_attr : Option (List Cb)) : Bool :=
  on_progress_attr.isSome

/-- The controller flags relevant to `start`/`bind`: `self._started` is the
`threading.Thread` event set by `Thread.start()`. -/
structure Ctrl where
  started : Bool
deriving DecidableEq, Repr

/-- `UrlRequestBase.start`: dispatches `on_start` and calls
`Thread.start()`, which sets `self._started`. -/
def start_ctrl (c : Ctrl) : Ctrl :=
  { c with started := true }

/-- A keyword argument to `bind`: the value is either a single callable or
an iterable of callables (the `try/except TypeError` in the source). -/
inductive BindArg
  | single (cb : Cb)
  | many (cbs : List Cb)
deriving DecidableEq, Repr

def bind_arg_list : BindArg → List Cb
  | BindArg.single cb => [cb]
  | BindArg.many cbs => cbs

/-- `UrlRequestBase.bind`: `assert not self._started.is_set()` runs before
anything else, so a started request raises `AssertionError` and registers
nothing; otherwise each keyword argument appends its callbacks to the
named callback list (the registry is modelled as a lookup by name). -/
def bind (started : Bool) (reg : String → List Cb)
    (kwargs : List (String × BindArg)) :
    Except Cause (String → List Cb) :=
  if started then Except.error "AssertionError"
  else Except.ok (kwargs.foldl
    (fun r kv => fun name =>
      if name == kv.1 then r name ++ bind_arg_list kv.2 else r name)
    reg)

/-! ## Auxiliary definitions used by the statements and witnesses -/

/-- The `Set-Cookie` values of a header list, in order. -/
def cookie_vals (headers : List (String × String)) : List String :=
  (headers.filter (fun kv => kv.1 == "Set-Cookie")).map Prod.snd

/-- `v1 ++ ";" ++ v2 ++ ";" ++ ...` — the shape the `final_cookies`
accumulator takes (each iteration appends `value + ";"`). -/
def semi_concat : List String → String
  | [] => ""
  | v :: rest => v ++ ";" ++ semi_concat rest

/-- Stated from the spec's words: the individual `Set-Cookie` values
"joined with ';'" (the trailing-separator trim of the code is compared
against this join). -/
def spec_cookie_join (vals : List String) : String := py_join ";" vals

/-- The response a queue event carries (`None` for error/killed events). -/
def resp_of : Ev → Option Resp
  | Ev.progress r _ _ => some r
  | Ev.success r _ => some r
  | _ => none

/-- A `json.loads` stand-in that fails on every input (any concrete parser
behaves like this on invalid JSON such as a truncated body). -/
def parse0 : String → Option Json := fun _ => none

/-- A UTF-8 decode stand-in failing on every input. -/
def utf80 : Bytes → Option String := fun _ => none

/-- A UTF-8 decode stand-in that always succeeds with `""`. -/
def utf81 : Bytes → Option String := fun _ => some ""

/-- A cancellation flag that is never set. -/
def cancel0 : Nat → Bool := fun _ => false

/-- A concrete 200 response with a JSON content type and an empty stream. -/
def respA : Resp :=
  { status := 200,
    headers := [("Content-Type", "application/json; charset=utf-8")],
    reads := [] }

/-- A concrete 404 response. -/
def respB : Resp := { status := 404, headers := [], reads := [] }

/-- A concrete 302 response. -/
def respC : Resp := { status := 302, headers := [], reads := [] }

/-- The progress events a fetch of `respA` pushes with no subscriber: the
synthetic initial progress and the final progress (no chunks, no
content-length). -/
def evsW : List Ev := [Ev.progress respA 0 (-1), Ev.progress respA 0 (-1)]

/-- A header list with duplicated `Set-Cookie` and `X` entries. -/
def hdrsW : List (String × String) :=
  [("Set-Cookie", "a=1"), ("X", "1"), ("Set-Cookie", "b=2"), ("X", "2")]

/-! ## Helper lemmas -/

theorem str_ext {a b : String} (h : a.data = b.data) : a = b := by
  cases a; cases b
  exact congrArg String.mk (by simpa using h)

theorem semicolon_data : (";" : String).data = [';'] := rfl

theorem semi_concat_data_ne_nil (v : String) (rest : List String) :
    (semi_concat (v :: rest)).data ≠ [] := by
  simp [semi_concat, String.data_append, semicolon_data]

theorem py_drop_last_semi_concat :
    ∀ l : List String, py_drop_last (semi_concat l) = spec_cookie_join l
  | [] => rfl
  | [v] => by
    apply str_ext
    simp [py_drop_last, semi_concat, spec_cookie_join, py_join,
      String.data_append, semicolon_data]
  | v :: w :: rest => by
    apply str_ext
    have ih := py_drop_last_semi_concat (w :: rest)
    have hne := semi_concat_data_ne_nil w rest
    have h1 : semi_concat (v :: w :: rest) = v ++ ";" ++ semi_concat (w :: rest) :=
      rfl
    have h2 : spec_cookie_join (v :: w :: rest)
        = v ++ ";" ++ spec_cookie_join (w :: rest) := rfl
    rw [h1, h2]
    show ((v ++ ";" ++ semi_concat (w :: rest)).data).dropLast = _
    calc ((v ++ ";" ++ semi_concat (w :: rest)).data).dropLast
        = (v ++ ";").data ++ ((semi_concat (w :: rest)).data).dropLast := by
          rw [String.data_append]
          exact List.dropLast_append_of_ne_nil _ hne
      _ = (v ++ ";").data ++ (py_drop_last (semi_concat (w :: rest))).data := rfl
      _ = (v ++ ";").data ++ (spec_cookie_join (w :: rest)).data := by rw [ih]
      _ = (v ++ ";" ++ spec_cookie_join (w :: rest)).data :=
          (String.data_append _ _).symm

theorem cookie_fold (l : List (String × String)) :
    ∀ (a : String) (b : List (String × String)),
    l.foldl (fun acc kv =>
        if kv.1 == "Set-Cookie" then (acc.1 ++ kv.2 ++ ";", acc.2)
        else (acc.1, acc.2 ++ [kv])) (a, b)
    = (a ++ semi_concat (cookie_vals l),
       b ++ l.filter (fun kv => !(kv.1 == "Set-Cookie"))) := by
  induction l with
  | nil => intro a b; simp [cookie_vals, semi_concat]
  | cons kv rest ih =>
    intro a b
    simp only [List.foldl_cons]
    by_cases hp : (kv.1 == "Set-Cookie") = true
    · rw [if_pos hp, ih]
      have hfc : cookie_vals (kv :: rest) = kv.2 :: cookie_vals rest := by
        simp [cookie_vals, List.filter_cons, hp]
      have hfn : List.filter (fun kv => !(kv.1 == "Set-Cookie")) (kv :: rest)
          = List.filter (fun kv => !(kv.1 == "Set-Cookie")) rest := by
        simp [List.filter_cons, hp]
      rw [hfc, hfn]
      simp [semi_concat, String.append_assoc]
    · rw [if_neg hp, ih]
      have hb : (kv.1 == "Set-Cookie") = false := by simpa using hp
      have hfc : cookie_vals (kv :: rest) = cookie_vals rest := by
        simp [cookie_vals, List.filter_cons, hb]
      have hfn : List.filter (fun kv => !(kv.1 == "Set-Cookie")) (kv :: rest)
          = kv :: List.filter (fun kv => !(kv.1 == "Set-Cookie")) rest := by
        simp [List.filter_cons, hb]
      rw [hfc, hfn]
      simp

theorem mrh_eq (headers : List (String × String)) :
    modify_response_headers headers
    = headers.filter (fun kv => !(kv.1 == "Set-Cookie"))
      ++ [("Set-Cookie", spec_cookie_join (cookie_vals headers))] := by
  unfold modify_response_headers
  rw [cookie_fold]
  simp [py_drop_last_semi_concat]

theorem pydict_get_append_same (l : List (String × String)) (k v : String) :
    pydict_get (l ++ [(k, v)]) k = some v := by
  simp [pydict_get, List.filter_append, List.getLast?_concat]

theorem pydict_get_append_other (l : List (String × String)) (k2 v k : String)
    (h : k2 ≠ k) : pydict_get (l ++ [(k2, v)]) k = pydict_get l k := by
  simp [pydict_get, List.filter_append, h]

theorem filter_not_cookie (headers : List (String × String)) (k : String)
    (h : k ≠ "Set-Cookie") :
    (headers.filter (fun kv => !(kv.1 == "Set-Cookie"))).filter
        (fun kv => kv.1 == k)
    = headers.filter (fun kv => kv.1 == k) := by
  rw [List.filter_filter]
  apply List.filter_congr
  intro kv _
  by_cases hk : kv.1 = k
  · subst hk
    simp [h]
  · simp [hk]

/-! ## Claim theorems -/

/-- Claim C7: building `resp_headers` merges every multi-valued `Set-Cookie`
header into a single `Set-Cookie` entry whose value is the individual values
joined with `';'` (trailing separator trimmed), and every other header key
keeps only the last value seen (dict overwrite-on-duplicate). -/
theorem set_cookie_merge_and_last_wins (headers : List (String × String)) :
    pydict_get (modify_response_headers headers) "Set-Cookie"
      = some (spec_cookie_join (cookie_vals headers))
    ∧ ∀ k, k ≠ "Set-Cookie" →
        pydict_get (modify_response_headers headers) k
          = ((headers.filter (fun kv => kv.1 == k)).getLast?).map Prod.snd := by
  rw [mrh_eq]
  constructor
  · exact pydict_get_append_same _ _ _
  · intro k hk
    rw [pydict_get_append_other _ _ _ _ (Ne.symm hk)]
    unfold pydict_get
    rw [filter_not_cookie _ _ hk]

/-- Witness for C7: on concrete duplicated headers, `Set-Cookie: a=1` and
`Set-Cookie: b=2` merge into `"a=1;b=2"` and the duplicated `X` header keeps
its last value `"2"`. -/
theorem set_cookie_merge_and_last_wins_witness :
    ("X" : String) ≠ "Set-Cookie"
    ∧ pydict_get (modify_response_headers hdrsW) "X"
        = ((hdrsW.filter (fun kv => kv.1 == "X")).getLast?).map Prod.snd
    ∧ pydict_get (modify_response_headers hdrsW) "Set-Cookie"
        = some (spec_cookie_join (cookie_vals hdrsW))
    ∧ spec_cookie_join (cookie_vals hdrsW) = "a=1;b=2"
    ∧ ((hdrsW.filter (fun kv => kv.1 == "X")).getLast?).map Prod.snd
        = some "2" :=
  ⟨by decide, (set_cookie_merge_and_last_wins hdrsW).2 "X" (by decide),
   (set_cookie_merge_and_last_wins hdrsW).1, by decide, by decide⟩

/-- Claim C8: calling `bind` after `start()` fails immediately (the
`assert not self._started.is_set()` raises) and registers no callback, for
every registry content and every keyword argument. -/
theorem bind_after_start_rejected (c : Ctrl) (reg : String → List Cb)
    (kwargs : List (String × BindArg)) :
    bind (start_ctrl c).started reg kwargs = Except.error "AssertionError" :=
  rfl

/-- Claim C2 (divergence witness for the code bug): the streaming-path
condition `report_progress or file_path is not None` is `true` for every
constructed request — `self.on_progress` is always a list, never `None` —
so even a request with no progress subscriber and no file sink takes the
chunked path and pushes the synthetic initial progress event, instead of
reading the whole body in one call. -/
theorem streaming_condition_always_true (arg : Option Cb) (fp : Option String)
    (utf8 : Bytes → Option String) (cancel : Nat → Bool) (resp : Resp) :
    (report_progress_flag (init_on_progress arg) || fp.isSome) = true
    ∧ (fetch_url (report_progress_flag (init_on_progress arg)) fp utf8 cancel
        (Except.ok resp)).1.head?
      = some (Ev.progress resp 0 (get_total_size resp)) := by
  have hrp : report_progress_flag (init_on_progress arg) = true := rfl
  rw [hrp]
  refine ⟨rfl, ?_⟩
  simp only [fetch_url, Bool.true_or, if_true]
  cases hgc : get_chunks true (get_total_size resp) cancel fp.isSome resp
      resp.reads 0 0 [] with
  | mk evs r =>
    cases r with
    | error e => simp
    | ok pr => simp

theorem get_chunks_progress (rp : Bool) (total : Int) (cancel : Nat → Bool)
    (fd : Bool) (resp : Resp) :
    ∀ (reads : List (Except Cause Bytes)) (i sf : Nat) (acc : Bytes),
    ((get_chunks rp total cancel fd resp reads i sf acc).1.all is_progress_ev)
      = true := by
  intro reads
  induction reads with
  | nil => intro i sf acc; rfl
  | cons hd tl ih =>
    intro i sf acc
    cases hd with
    | error e => rfl
    | ok c =>
      by_cases hc : c.length = 0
      · simp [get_chunks, hc]
      · by_cases hcan : cancel i
        · cases rp <;> simp [get_chunks, hc, hcan, is_progress_ev]
        · cases rp <;>
            simp [get_chunks, hc, hcan, is_progress_ev, List.all_append, ih]

theorem fetch_url_progress (rp : Bool) (fp : Option String)
    (utf8 : Bytes → Option String) (cancel : Nat → Bool)
    (cr : Except Cause Resp) :
    ((fetch_url rp fp utf8 cancel cr).1.all is_progress_ev) = true := by
  cases cr with
  | error e => rfl
  | ok resp =>
    simp only [fetch_url]
    by_cases hb : (rp || fp.isSome) = true
    · rw [if_pos hb]
      cases hgc : get_chunks rp (get_total_size resp) cancel fp.isSome resp
          resp.reads 0 0 [] with
      | mk evs r =>
        have hall : evs.all is_progress_ev = true := by
          have h := get_chunks_progress rp (get_total_size resp) cancel
            fp.isSome resp resp.reads 0 0 []
          rw [hgc] at h
          exact h
        cases r with
        | error e =>
          cases rp <;> simp [List.all_append, hall, is_progress_ev]
        | ok pr =>
          obtain ⟨sf, res⟩ := pr
          cases rp <;> simp [List.all_append, hall, is_progress_ev]
    · rw [if_neg hb]
      cases hra : read_all resp.reads with
      | error e => rfl
      | ok bs => cases utf8 bs <;> rfl

theorem fetch_url_resp (rp : Bool) (fp : Option String)
    (utf8 : Bytes → Option String) (cancel : Nat → Bool)
    (cr : Except Cause Resp) (b : Body) (r : Resp)
    (h : (fetch_url rp fp utf8 cancel cr).2 = Except.ok (b, r)) :
    cr = Except.ok r := by
  cases cr with
  | error e => simp [fetch_url] at h
  | ok resp =>
    simp only [fetch_url] at h
    by_cases hb : (rp || fp.isSome) = true
    · rw [if_pos hb] at h
      cases hgc : get_chunks rp (get_total_size resp) cancel fp.isSome resp
          resp.reads 0 0 [] with
      | mk evs rr =>
        rw [hgc] at h
        cases rr with
        | error e => simp at h
        | ok pr =>
          obtain ⟨sf, res⟩ := pr
          simp at h
          rw [h.2]
    · rw [if_neg hb] at h
      cases hra : read_all resp.reads with
      | error e => rw [hra] at h; simp at h
      | ok bs =>
        rw [hra] at h
        simp at h
        rw [h.2]

theorem run_events_shape (decode : Bool) (parse : String → Option Json)
    (utf8 : Bytes → Option String) (rp : Bool) (fp : Option String)
    (cancel : Nat → Bool) (cf : Bool) (cr : Except Cause Resp) :
    ∃ t, run_events decode parse utf8 rp fp cancel cf cr
        = (fetch_url rp fp utf8 cancel cr).1 ++ [t]
      ∧ is_terminal_ev t = true
      ∧ ∀ r d, t = Ev.success r d → cr = Except.ok r := by
  unfold run_events
  cases hf : fetch_url rp fp utf8 cancel cr with
  | mk evs res =>
    cases res with
    | error e =>
      refine ⟨Ev.err e, by simp, rfl, ?_⟩
      intro r d hs; cases hs
    | ok pr =>
      obtain ⟨result, resp⟩ := pr
      have hresp : cr = Except.ok resp :=
        fetch_url_resp rp fp utf8 cancel cr result resp (by rw [hf])
      cases hd : (if decode then decode_result parse utf8 result resp
          else Except.ok result) with
      | error e =>
        refine ⟨Ev.err e, by simp [hd], rfl, ?_⟩
        intro r d hs; cases hs
      | ok result2 =>
        cases cf with
        | true =>
          refine ⟨Ev.killed, by simp [hd], rfl, ?_⟩
          intro r d hs; cases hs
        | false =>
          refine ⟨Ev.success resp result2, by simp [hd], rfl, ?_⟩
          intro r d hs
          cases hs
          exact hresp

theorem drain_all_append (s : DState) (l1 l2 : List Ev) :
    drain_all s (l1 ++ l2)
      = ((drain_all (drain_all s l1).1 l2).1,
         (drain_all s l1).2 ++ (drain_all (drain_all s l1).1 l2).2) := by
  induction l1 generalizing s with
  | nil => simp [drain_all]
  | cons e rest ih => simp [drain_all, ih, List.append_assoc]

theorem drain_all_progress_calls (evs : List Ev) :
    ∀ s : DState, evs.all is_progress_ev = true →
    ((drain_all s evs).2.all is_progress_call) = true := by
  induction evs with
  | nil => intro s _; rfl
  | cons e rest ih =>
    intro s h
    rw [List.all_cons] at h
    obtain ⟨he, hrest⟩ := Bool.and_eq_true_iff.1 h
    cases e with
    | progress r a b =>
      simp [drain_all, drain_event, is_progress_call, ih _ hrest]
    | success r d => simp [is_progress_ev] at he
    | err e2 => simp [is_progress_ev] at he
    | killed => simp [is_progress_ev] at he

theorem drain_all_progress_frame (evs : List Ev) :
    ∀ s : DState, evs.all is_progress_ev = true →
    (drain_all s evs).1.is_finished = s.is_finished
    ∧ (drain_all s evs).1.result = s.result
    ∧ (drain_all s evs).1.error = s.error := by
  induction evs with
  | nil => intro s _; exact ⟨rfl, rfl, rfl⟩
  | cons e rest ih =>
    intro s h
    rw [List.all_cons] at h
    obtain ⟨he, hrest⟩ := Bool.and_eq_true_iff.1 h
    cases e with
    | progress r a b =>
      have hstep := ih (set_resp s r) hrest
      simpa [drain_all, drain_event, set_resp] using hstep
    | success r d => simp [is_progress_ev] at he
    | err e2 => simp [is_progress_ev] at he
    | killed => simp [is_progress_ev] at he

theorem on_status_calls_cases (n : Nat) (d : Body)
    (h1 : 100 ≤ n) (h2 : n ≤ 599) :
    ∃ tc, on_status_calls (n / 100) d = [tc] ∧ is_terminal_call tc = true := by
  have h : n / 100 = 1 ∨ n / 100 = 2 ∨ n / 100 = 3 ∨ n / 100 = 4
      ∨ n / 100 = 5 := by omega
  rcases h with h | h | h | h | h <;> rw [h]
  · exact ⟨Call.success d, rfl, rfl⟩
  · exact ⟨Call.success d, rfl, rfl⟩
  · exact ⟨Call.redirect d, rfl, rfl⟩
  · exact ⟨Call.failure d, rfl, rfl⟩
  · exact ⟨Call.failure d, rfl, rfl⟩

/-- Claim C1: for every request, the worker pushes exactly one terminal
event preceded only by progress events and followed by nothing, and
draining the queue dispatches exactly one of
`on_success`/`on_redirect`/`on_failure`/`on_error`/`on_cancel`, exactly
once, immediately followed by exactly one `on_finish` (never after a
progress event).  The success classification assumes an HTTP status code
in 100..599 (outside that range `_on_status_code` dispatches nothing). -/
theorem run_one_terminal_one_callback (decode : Bool)
    (parse : String → Option Json) (utf8 : Bytes → Option String)
    (rp : Bool) (fp : Option String) (cancel : Nat → Bool) (cf : Bool)
    (cr : Except Cause Resp)
    (hstat : ∀ r, cr = Except.ok r → 100 ≤ r.status ∧ r.status ≤ 599) :
    ∃ pes t, run_events decode parse utf8 rp fp cancel cf cr = pes ++ [t]
      ∧ pes.all is_progress_ev = true
      ∧ is_terminal_ev t = true
      ∧ ∃ pcs tc,
          (drain_all init_state
              (run_events decode parse utf8 rp fp cancel cf cr)).2
            = pcs ++ [tc, Call.finish]
          ∧ pcs.all is_progress_call = true
          ∧ is_terminal_call tc = true := by
  obtain ⟨t, hrun, hterm, hsucc⟩ :=
    run_events_shape decode parse utf8 rp fp cancel cf cr
  have hprog := fetch_url_progress rp fp utf8 cancel cr
  refine ⟨_, t, hrun, hprog, hterm, ?_⟩
  rw [hrun, drain_all_append]
  have hpcs := drain_all_progress_calls _ init_state hprog
  cases t with
  | progress r a b => simp [is_terminal_ev] at hterm
  | success r d =>
    obtain ⟨h1, h2⟩ := hstat r (hsucc r d rfl)
    obtain ⟨tc, htc, htct⟩ := on_status_calls_cases r.status d h1 h2
    refine ⟨_, tc, ?_, hpcs, htct⟩
    simp [drain_all, drain_event, htc]
  | err e =>
    refine ⟨_, Call.error e, ?_, hpcs, rfl⟩
    simp [drain_all, drain_event]
  | killed =>
    refine ⟨_, Call.cancel, ?_, hpcs, rfl⟩
    simp [drain_all, drain_event]

/-- Witness for C1 at a concrete 200 request. -/
theorem run_one_terminal_one_callback_witness :
    (∀ r, (Except.ok respA : Except Cause Resp) = Except.ok r
        → 100 ≤ r.status ∧ r.status ≤ 599)
    ∧ ∃ pes t,
        run_events false parse0 utf80 true none cancel0 false
            (Except.ok respA) = pes ++ [t]
        ∧ pes.all is_progress_ev = true
        ∧ is_terminal_ev t = true
        ∧ ∃ pcs tc,
            (drain_all init_state
                (run_events false parse0 utf80 true none cancel0 false
                  (Except.ok respA))).2
              = pcs ++ [tc, Call.finish]
            ∧ pcs.all is_progress_call = true
            ∧ is_terminal_call tc = true := by
  have h : ∀ r, (Except.ok respA : Except Cause Resp) = Except.ok r
      → 100 ≤ r.status ∧ r.status ≤ 599 := by
    intro r hr
    injection hr with hr2
    subst hr2
    exact ⟨by decide, by decide⟩
  exact ⟨h, run_one_terminal_one_callback false parse0 utf80 true none
    cancel0 false (Except.ok respA) h⟩

/-- Claim C5: when the cancellation flag is set at the outcome decision
(fetch and optional decode completed without exception), the worker queues
the `killed` terminal event and never a `success` event. -/
theorem cancel_flag_yields_killed (decode : Bool)
    (parse : String → Option Json) (utf8 : Bytes → Option String)
    (rp : Bool) (fp : Option String) (cancel : Nat → Bool)
    (cr : Except Cause Resp) (evs : List Ev) (bd : Body) (resp : Resp)
    (bd2 : Body)
    (hfetch : fetch_url rp fp utf8 cancel cr = (evs, Except.ok (bd, resp)))
    (hdec : (if decode then decode_result parse utf8 bd resp
             else Except.ok bd) = Except.ok bd2) :
    run_events decode parse utf8 rp fp cancel true cr = evs ++ [Ev.killed]
    ∧ ∀ r d, Ev.success r d ∉
        run_events decode parse utf8 rp fp cancel true cr := by
  have hrun : run_events decode parse utf8 rp fp cancel true cr
      = evs ++ [Ev.killed] := by
    unfold run_events
    rw [hfetch]
    simp [hdec]
  refine ⟨hrun, ?_⟩
  intro r d hmem
  rw [hrun] at hmem
  rcases List.mem_append.1 hmem with hm | hm
  · have hall := fetch_url_progress rp fp utf8 cancel cr
    rw [hfetch] at hall
    have := List.all_eq_true.1 hall _ hm
    simp [is_progress_ev] at this
  · simp at hm

/-- Witness for C5: a concrete fetch that completes (empty stream, 200
response) with the flag set at the final check yields `killed`, not
`success`. -/
theorem cancel_flag_yields_killed_witness :
    fetch_url true none utf80 cancel0 (Except.ok respA)
        = (evsW, Except.ok (Body.bytes [], respA))
    ∧ (if false then decode_result parse0 utf80 (Body.bytes []) respA
        else Except.ok (Body.bytes [])) = Except.ok (Body.bytes [])
    ∧ (run_events false parse0 utf80 true none cancel0 true (Except.ok respA)
        = evsW ++ [Ev.killed]
      ∧ ∀ r d, Ev.success r d ∉
          run_events false parse0 utf80 true none cancel0 true
            (Except.ok respA)) :=
  ⟨by decide, by decide,
   cancel_flag_yields_killed false parse0 utf80 true none cancel0
     (Except.ok respA) evsW (Body.bytes []) respA (Body.bytes [])
     (by decide) (by decide)⟩

/-- Claim C6: draining a `success` event classifies by the hundreds digit
of the status code: 100..299 dispatches `on_success` with the body,
300..399 dispatches `on_redirect` with the body, 400..599 dispatches
`on_failure` with the body (each followed by `on_finish`). -/
theorem status_class_dispatch (s : DState) (resp : Resp) (d : Body) :
    (100 ≤ resp.status → resp.status ≤ 299 →
      (drain_event s (Ev.success resp d)).2 = [Call.success d, Call.finish])
    ∧ (300 ≤ resp.status → resp.status ≤ 399 →
      (drain_event s (Ev.success resp d)).2 = [Call.redirect d, Call.finish])
    ∧ (400 ≤ resp.status → resp.status ≤ 599 →
      (drain_event s (Ev.success resp d)).2
        = [Call.failure d, Call.finish]) := by
  refine ⟨?_, ?_, ?_⟩
  · intro h1 h2
    have h : resp.status / 100 = 1 ∨ resp.status / 100 = 2 := by omega
    rcases h with h | h <;> simp [drain_event, on_status_calls, h]
  · intro h1 h2
    have h : resp.status / 100 = 3 := by omega
    simp [drain_event, on_status_calls, h]
  · intro h1 h2
    have h : resp.status / 100 = 4 ∨ resp.status / 100 = 5 := by omega
    rcases h with h | h <;> simp [drain_event, on_status_calls, h]

/-- Witness for C6 at concrete 200, 302 and 404 responses. -/
theorem status_class_dispatch_witness :
    (drain_event init_state (Ev.success respA (Body.str "b"))).2
      = [Call.success (Body.str "b"), Call.finish]
    ∧ (drain_event init_state (Ev.success respC (Body.str "b"))).2
      = [Call.redirect (Body.str "b"), Call.finish]
    ∧ (drain_event init_state (Ev.success respB (Body.str "b"))).2
      = [Call.failure (Body.str "b"), Call.finish] :=
  ⟨(status_class_dispatch init_state respA (Body.str "b")).1
      (by decide) (by decide),
   (status_class_dispatch init_state respC (Body.str "b")).2.1
      (by decide) (by decide),
   (status_class_dispatch init_state respB (Body.str "b")).2.2
      (by decide) (by decide)⟩

/-- Claim C4: when the content type before the first `';'` is
`application/json`, `decode_result` attempts a JSON parse; on any parse
failure it returns the undecoded text value without raising, and a JSON
parse failure is never turned into a terminal `error` event for the
request. -/
theorem decode_result_json_fallback (parse : String → Option Json)
    (utf8 : Bytes → Option String) (resp : Resp) (ct : String) (s : String)
    (hct : get_content_type resp = some ct)
    (hjson : py_split_head ct ';' = "application/json")
    (hfail : parse s = none) :
    decode_result parse utf8 (Body.str s) resp = Except.ok (Body.str s)
    ∧ (∀ b, utf8 b = some s →
        decode_result parse utf8 (Body.bytes b) resp
          = Except.ok (Body.str s))
    ∧ (∀ rp fp cancel cf cr evs,
        fetch_url rp fp utf8 cancel cr = (evs, Except.ok (Body.str s, resp))
        → ∀ e, Ev.err e ∉ run_events true parse utf8 rp fp cancel cf cr) := by
  have h1 : decode_result parse utf8 (Body.str s) resp
      = Except.ok (Body.str s) := by
    unfold decode_result
    rw [hct]
    simp [hjson, hfail]
  refine ⟨h1, ?_, ?_⟩
  · intro b hb
    unfold decode_result
    rw [hct]
    simp [hjson, hb, hfail]
  · intro rp fp cancel cf cr evs hfetch e hmem
    have hrun : run_events true parse utf8 rp fp cancel cf cr
        = evs ++ (if cf then [Ev.killed]
                  else [Ev.success resp (Body.str s)]) := by
      unfold run_events
      rw [hfetch]
      cases cf <;> simp [h1]
    rw [hrun] at hmem
    rcases List.mem_append.1 hmem with hm | hm
    · have hall := fetch_url_progress rp fp utf8 cancel cr
      rw [hfetch] at hall
      have hm2 := List.all_eq_true.1 hall _ hm
      simp [is_progress_ev] at hm2
    · cases cf <;> simp at hm

/-- Witness for C4: the truncated JSON body with a JSON content type falls
back to the raw text value, without error. -/
theorem decode_result_json_fallback_witness :
    get_content_type respA = some "application/json; charset=utf-8"
    ∧ py_split_head "application/json; charset=utf-8" ';'
        = "application/json"
    ∧ parse0 "\x7b\"a\":" = none
    ∧ decode_result parse0 utf80 (Body.str "\x7b\"a\":") respA
        = Except.ok (Body.str "\x7b\"a\":") :=
  ⟨by decide, by decide, rfl,
   (decode_result_json_fallback parse0 utf80 respA
      "application/json; charset=utf-8" "\x7b\"a\":"
      (by decide) (by decide) rfl).1⟩

/-- Claim C3 counterexample: a request whose only event is a terminal
`error` (a connect failure, which queues no progress or success event)
never makes `wait()` return: draining it sets `error` but not
`resp_status`, and the loop condition checks only `resp_status`. -/
theorem wait_never_returns_on_error :
    ¬ ∃ n s2, wait_steps n init_state [Ev.err "ConnectionRefusedError"]
        = some s2 := by
  have hstuck : ∀ (n : Nat) (s : DState), s.resp_status = none
      → wait_steps n s [] = none := by
    intro n
    induction n with
    | zero => intro s _; rfl
    | succ n ih =>
      intro s h
      rw [wait_steps]
      have hc : s.resp_status.isSome = false := by rw [h]; rfl
      rw [hc]
      simp only [Bool.false_eq_true, if_false]
      have hd : drain_state s [] = s := rfl
      rw [hd]
      exact ih s h
  rintro ⟨n, s2, h⟩
  cases n with
  | zero => cases h
  | succ n =>
    rw [wait_steps] at h
    have hc : (init_state.resp_status).isSome = false := rfl
    rw [hc] at h
    simp only [Bool.false_eq_true, if_false] at h
    rw [hstuck n _ (by decide)] at h
    cases h

/-- Claim C3 (amended): `wait()` returns only once `resp_status` is
non-None (hence `resp_status` or `error` is non-None), and it eventually
returns precisely when draining the queued events sets `resp_status` —
true for every run that received a response, false for a request that
errors before any response, for which `wait()` never returns. -/
theorem wait_returns_iff_status_set :
    (∀ (n : Nat) (s : DState) (evs : List Ev) (s2 : DState),
        wait_steps n s evs = some s2 → s2.resp_status.isSome = true)
    ∧ (∀ (s : DState) (evs : List Ev),
        (drain_state s evs).resp_status.isSome = true →
        ∃ n s2, wait_steps n s evs = some s2) := by
  constructor
  · intro n
    induction n with
    | zero => intro s evs s2 h; cases h
    | succ n ih =>
      intro s evs s2 h
      rw [wait_steps] at h
      by_cases hs : s.resp_status.isSome = true
      · rw [if_pos hs] at h
        injection h with h2
        subst h2
        exact hs
      · rw [if_neg hs] at h
        exact ih _ _ _ h
  · intro s evs h
    by_cases hs : s.resp_status.isSome = true
    · refine ⟨Nat.succ 0, s, ?_⟩
      rw [wait_steps, if_pos hs]
    · refine ⟨Nat.succ (Nat.succ 0), drain_state s evs, ?_⟩
      rw [wait_steps, if_neg hs, wait_steps, if_pos h]

/-- Witness for C3 (amended): draining a success event sets `resp_status`,
after which `wait()` returns. -/
theorem wait_returns_witness :
    (drain_state init_state
        [Ev.success respA (Body.str "x")]).resp_status.isSome = true
    ∧ ∃ n s2, wait_steps n init_state [Ev.success respA (Body.str "x")]
        = some s2 :=
  ⟨by decide, wait_returns_iff_status_set.2 init_state
      [Ev.success respA (Body.str "x")] (by decide)⟩

/-- Claim C9 (amended): draining the `killed` event dispatches `on_cancel`
then `on_finish` and changes no state field; after a cancelled request is
fully drained, `is_finished` stays `false` and `result` and `error` stay
`none` — but `resp_status`/`resp_headers` do not stay `None` when progress
events preceded the `killed` event (see the counterexample). -/
theorem killed_drain_frame (s : DState) (evs : List Ev)
    (hprog : evs.all is_progress_ev = true) :
    drain_event s Ev.killed = (s, [Call.cancel, Call.finish])
    ∧ (drain_all init_state (evs ++ [Ev.killed])).1.is_finished = false
    ∧ (drain_all init_state (evs ++ [Ev.killed])).1.result = none
    ∧ (drain_all init_state (evs ++ [Ev.killed])).1.error = none := by
  obtain ⟨hf, hr, he⟩ := drain_all_progress_frame evs init_state hprog
  have hfinal : (drain_all init_state (evs ++ [Ev.killed])).1
      = (drain_all init_state evs).1 := by
    rw [drain_all_append]
    rfl
  refine ⟨rfl, ?_, ?_, ?_⟩
  · rw [hfinal]; exact hf
  · rw [hfinal]; exact hr
  · rw [hfinal]; exact he

/-- Claim C9 counterexample: a concrete cancelled run (200 response, empty
stream, flag set at the outcome decision) queues progress events before
`killed`, and after the queue is fully drained `resp_status` is
`some 200` and `resp_headers` is set — they do not stay `None`. -/
theorem killed_drain_cex :
    run_events false parse0 utf80 true none cancel0 true (Except.ok respA)
      = evsW ++ [Ev.killed]
    ∧ (drain_all init_state
        (run_events false parse0 utf80 true none cancel0 true
          (Except.ok respA))).1.resp_status = some 200
    ∧ (drain_all init_state
        (run_events false parse0 utf80 true none cancel0 true
          (Except.ok respA))).1.resp_headers ≠ none :=
  ⟨by decide, by decide, by decide⟩

/-- Witness for C9 (amended) at the concrete cancelled run's events. -/
theorem killed_drain_frame_witness :
    evsW.all is_progress_ev = true
    ∧ (drain_event init_state Ev.killed
        = (init_state, [Call.cancel, Call.finish])
      ∧ (drain_all init_state (evsW ++ [Ev.killed])).1.is_finished = false
      ∧ (drain_all init_state (evsW ++ [Ev.killed])).1.result = none
      ∧ (drain_all init_state (evsW ++ [Ev.killed])).1.error = none) :=
  ⟨by decide, killed_drain_frame init_state evsW (by decide)⟩

/-- Claim C10: draining any event that carries a response stores a
`resp_headers` mapping that always contains the key `Set-Cookie`; when the
response had no `Set-Cookie` header at all, its value is the empty
string. -/
theorem drained_headers_have_set_cookie (s : DState) (e : Ev) (r : Resp)
    (hr : resp_of e = some r) :
    pydict_get (((drain_event s e).1.resp_headers).getD []) "Set-Cookie"
      = some (spec_cookie_join (cookie_vals r.headers))
    ∧ ((∀ kv ∈ r.headers, kv.1 ≠ "Set-Cookie")
        → spec_cookie_join (cookie_vals r.headers) = "") := by
  have hh : (drain_event s e).1.resp_headers
      = some (modify_response_headers r.headers) := by
    cases e with
    | progress r2 a b =>
      injection hr with hr2
      subst hr2
      rfl
    | success r2 d =>
      injection hr with hr2
      subst hr2
      rfl
    | err e2 => cases hr
    | killed => cases hr
  constructor
  · rw [hh]
    show pydict_get (modify_response_headers r.headers) "Set-Cookie" = _
    rw [mrh_eq]
    exact pydict_get_append_same _ _ _
  · intro hnone
    have hempty : cookie_vals r.headers = [] := by
      unfold cookie_vals
      have hfil : r.headers.filter (fun kv => kv.1 == "Set-Cookie") = [] := by
        rw [List.filter_eq_nil_iff]
        intro kv hkv
        simp [hnone kv hkv]
      rw [hfil]
      rfl
    rw [hempty]
    rfl

/-- Witness for C10: a response with no `Set-Cookie` header still yields a
`Set-Cookie` entry whose value is the empty string. -/
theorem drained_headers_have_set_cookie_witness :
    resp_of (Ev.success respA (Body.str "ok")) = some respA
    ∧ spec_cookie_join (cookie_vals respA.headers) = ""
    ∧ (pydict_get (((drain_event init_state
          (Ev.success respA (Body.str "ok"))).1.resp_headers).getD [])
          "Set-Cookie"
        = some (spec_cookie_join (cookie_vals respA.headers))
      ∧ ((∀ kv ∈ respA.headers, kv.1 ≠ "Set-Cookie")
          → spec_cookie_join (cookie_vals respA.headers) = "")) :=
  ⟨rfl, by decide,
   drained_headers_have_set_cookie init_state
     (Ev.success respA (Body.str "ok")) respA rfl⟩

end UrlRequest
